import Mathlib

/-!
Verification of the blob value type of `go-square` (`share/blob.go`):
construction and validation (`NewBlob`, `NewV0Blob`, `NewV1Blob`,
`NewBlobFromProto`), the two wire encodings (binary protobuf and JSON),
ordering (`Compare`, `SortBlobs`), emptiness (`IsEmpty`) and the splitter
boundary call (`ToShares`).

Go byte slices are modelled as `List Nat`; a possibly-nil slice (the
signer) as `Option (List Nat)` with `none` for Go `nil`.  Fallible Go
functions returning `(*Blob, error)` are modelled as pairs
`Option Blob × Option BlobError`, mirroring each `return` statement of the
source.  Error kinds are an inductive type carrying the values the Go
error messages report.
-/

namespace GoSquare

/-- `NamespaceVersionZero = 0` (constants contract, spec §6). -/
def NamespaceVersionZero : Nat := 0

/-- Modelled from the spec: `NamespaceVersionMax` is the maximum
representable namespace version (a byte), i.e. 255.  The constant is
declared outside `src/`. -/
def NamespaceVersionMax : Nat := 255

/-- `ShareVersionZero = 0` (constants contract, spec §6). -/
def ShareVersionZero : Nat := 0

/-- `ShareVersionOne = 1` (constants contract, spec §6). -/
def ShareVersionOne : Nat := 1

/-- Modelled from the spec: `MaxShareVersion` is the upper bound of the
share-version range check; the spec fixes the share-version domain to
0–127, so `MaxShareVersion = 127`.  The constant is declared outside
`src/`. -/
def MaxShareVersion : Nat := 127

/-- Modelled from the spec: `SignerSize` is the required byte length of a
share-version-1 signer.  The spec does not fix its numeric value (it is
declared outside `src/`); 20 is used here, and no proof below depends on
the exact value beyond its being positive. -/
def SignerSize : Nat := 20

/-- The Go conversion `uint8(x)` applied to a wider integer. -/
def uint8Cast (n : Nat) : Nat := n % 256

/-- Go `len` on a possibly-nil byte slice: `len(nil) = 0`. -/
def sliceLen : Option (List Nat) → Nat
  | none => 0
  | some s => s.length

/-- Modelled from the spec: `Namespace` is an opaque, versioned identifier
(a byte string) consumed through `IsEmpty`, `Version`, `ID` and `Compare`;
its own internal validation is out of scope (spec §1).  The underlying
bytes are the version byte followed by the id bytes. -/
structure Namespace where
  bytes : List Nat
deriving DecidableEq, Inhabited

namespace Namespace

/-- Modelled from the spec: a namespace is empty exactly when it is the
zero value, i.e. its byte string is empty. -/
def IsEmpty (ns : Namespace) : Bool := ns.bytes.length == 0

/-- Modelled from the spec: the version accessor (first byte). -/
def Version (ns : Namespace) : Nat := ns.bytes.headD 0

/-- Modelled from the spec: the id accessor (bytes after the version). -/
def ID (ns : Namespace) : List Nat := ns.bytes.tail

/-- Go `bytes.Compare`: lexicographic three-way comparison. -/
def bytesCompare : List Nat → List Nat → Int
  | [], [] => 0
  | [], _ :: _ => -1
  | _ :: _, [] => 1
  | a :: as, b :: bs => if a < b then -1 else if b < a then 1 else bytesCompare as bs

/-- Modelled from the spec: `Namespace.Compare` is the lexicographic
comparison of the underlying bytes. -/
def Compare (a b : Namespace) : Int := bytesCompare a.bytes b.bytes

end Namespace

/-- Modelled from the spec: `NewNamespace version id` reassembles a
namespace value from its version and id parts.  The namespace type's own
validation is out of scope (spec §1), so the function is modelled total;
its error branch inside `NewBlobFromProto` is consequently not modelled. -/
def NewNamespace (version : Nat) (id : List Nat) : Namespace := ⟨version :: id⟩

/-- The error kinds of spec §7 that the core can produce, carrying the
values the corresponding Go error messages report. -/
inductive BlobError where
  | emptyData
  | emptyNamespace
  | unsupportedNamespaceVersion (expected actual : Nat)
  | signerNotAllowed
  | signerSize (required : Nat)
  | unsupportedShareVersion (version : Nat)
  | namespaceVersionRange
  | shareVersionRange (max : Nat)
  | decodeError
deriving DecidableEq, Inhabited

/-- The `Blob` struct of `share/blob.go`: namespace, data, share version,
optional signer.  (`namespace` is a Lean keyword, so the field is `ns`.) -/
structure Blob where
  ns : Namespace
  data : List Nat
  shareVersion : Nat
  signer : Option (List Nat)
deriving DecidableEq, Inhabited

/-- `NewBlob` of `share/blob.go`: stateless validation, then construction. -/
def NewBlob (ns : Namespace) (data : List Nat) (shareVersion : Nat)
    (signer : Option (List Nat)) : Option Blob × Option BlobError :=
  if data.length = 0 then (none, some .emptyData)
  else if ns.IsEmpty then (none, some .emptyNamespace)
  else if ns.Version ≠ NamespaceVersionZero then
    (none, some (.unsupportedNamespaceVersion NamespaceVersionZero ns.Version))
  else if shareVersion = ShareVersionZero then
    if signer ≠ none then (none, some .signerNotAllowed)
    else (some ⟨ns, data, shareVersion, signer⟩, none)
  else if shareVersion = ShareVersionOne then
    if sliceLen signer ≠ SignerSize then (none, some (.signerSize SignerSize))
    else (some ⟨ns, data, shareVersion, signer⟩, none)
  else (none, some (.unsupportedShareVersion shareVersion))

/-- `NewV0Blob`: convenience constructor fixing share version 0, no signer. -/
def NewV0Blob (ns : Namespace) (data : List Nat) : Option Blob × Option BlobError :=
  NewBlob ns data 0 none

/-- `NewV1Blob`: convenience constructor fixing share version 1. -/
def NewV1Blob (ns : Namespace) (data : List Nat) (signer : Option (List Nat)) :
    Option Blob × Option BlobError :=
  NewBlob ns data 1 signer

/-- The intermediate wire record (`v1.BlobProto`, spec §6): namespace id,
namespace version, share version, data, optional signer.  The two version
fields are uint32 on the wire, wider than the validated domain. -/
structure BlobProto where
  namespaceId : List Nat
  namespaceVersion : Nat
  shareVersion : Nat
  data : List Nat
  signer : Option (List Nat)
deriving DecidableEq, Inhabited

/-- Modelled from the spec: both codecs omit an empty optional bytes field
on the wire, so a present-but-empty signer is indistinguishable from an
absent one after a marshal; marshalling canonicalises it to absent. -/
def normalizeSigner : Option (List Nat) → Option (List Nat)
  | some [] => none
  | s => s

/-- Modelled from the spec: canonical wire form of the intermediate record
(the only non-canonical part under this model is the optional signer). -/
def protoNormalize (pb : BlobProto) : BlobProto :=
  { pb with signer := normalizeSigner pb.signer }

/-- Modelled from the spec: a binary wire payload either parses into the
intermediate record or is garbage (malformed bytes). -/
inductive BinaryPayload where
  | garbage
  | record (pb : BlobProto)
deriving DecidableEq, Inhabited

/-- Modelled from the spec: `proto.Marshal` is a lossless serialization of
the canonicalised intermediate record. -/
def protoMarshalBytes (pb : BlobProto) : BinaryPayload := .record (protoNormalize pb)

/-- Modelled from the spec: `proto.Unmarshal` recovers the record from a
well-formed payload and fails on garbage. -/
def protoUnmarshalBytes : BinaryPayload → Option BlobProto
  | .garbage => none
  | .record pb => some pb

/-- Modelled from the spec: a textual (JSON) wire payload either parses
into the intermediate record or is garbage. -/
inductive JsonPayload where
  | garbage
  | record (pb : BlobProto)
deriving DecidableEq, Inhabited

/-- Modelled from the spec: `json.Marshal` of the intermediate record
(same field set and canonicalisation as the binary codec, independent
encoding). -/
def jsonMarshalBytes (pb : BlobProto) : JsonPayload := .record (protoNormalize pb)

/-- Modelled from the spec: `json.Unmarshal` into the intermediate record;
fails on garbage. -/
def jsonUnmarshalBytes : JsonPayload → Option BlobProto
  | .garbage => none
  | .record pb => some pb

/-- `NewBlobFromProto` of `share/blob.go`: two range checks on the wide
wire fields, then namespace reconstruction, then the validating
constructor. -/
def NewBlobFromProto (pb : BlobProto) : Option Blob × Option BlobError :=
  if pb.namespaceVersion > NamespaceVersionMax then
    (none, some .namespaceVersionRange)
  else if pb.shareVersion > MaxShareVersion then
    (none, some (.shareVersionRange MaxShareVersion))
  else
    NewBlob (NewNamespace (uint8Cast pb.namespaceVersion) pb.namespaceId)
      pb.data (uint8Cast pb.shareVersion) pb.signer

/-- `UnmarshalBlob` of `share/blob.go`: parse the record, then route
through `NewBlobFromProto`. -/
def UnmarshalBlob (blob : BinaryPayload) : Option Blob × Option BlobError :=
  match protoUnmarshalBytes blob with
  | none => (none, some .decodeError)
  | some pb => NewBlobFromProto pb

/-- The record `Marshal` and `MarshalJSON` build from a blob's fields. -/
def Blob.toProto (b : Blob) : BlobProto :=
  { namespaceId := b.ns.ID
    namespaceVersion := b.ns.Version
    shareVersion := b.shareVersion
    data := b.data
    signer := b.signer }

/-- `Marshal` of `share/blob.go`: binary serialization of the record. -/
def Blob.Marshal (b : Blob) : BinaryPayload := protoMarshalBytes b.toProto

/-- `MarshalJSON` of `share/blob.go`: textual serialization of the record. -/
def Blob.MarshalJSON (b : Blob) : JsonPayload := jsonMarshalBytes b.toProto

/-- `UnmarshalJSON` of `share/blob.go`: the receiver `b` is a value that
is overwritten (`*b = *blob`) only after both the parse and the validating
construction succeed; the result is the new receiver value and the
returned error.  The success-without-blob branch is unreachable (proved
below as `newBlobFromProto_not_none_none`); Go would dereference nil
there, and the model leaves the receiver unchanged. -/
def Blob.UnmarshalJSON (b : Blob) (bb : JsonPayload) : Blob × Option BlobError :=
  match jsonUnmarshalBytes bb with
  | none => (b, some .decodeError)
  | some pb =>
    match NewBlobFromProto pb with
    | (_, some e) => (b, some e)
    | (blob, none) => (blob.getD b, none)

/-- `Compare` of `share/blob.go`: order two blobs by their namespaces. -/
def Blob.Compare (b other : Blob) : Int := b.ns.Compare other.ns

/-- `IsEmpty` of `share/blob.go`: true exactly when the data is empty. -/
def Blob.IsEmpty (b : Blob) : Bool := b.data.length == 0

/-- The non-strict Boolean comparator induced by the `less` predicate of
`SortBlobs` (`le a b = ¬ less b a`). -/
def blobLE (a b : Blob) : Bool := !decide (Blob.Compare b a < 0)

/-- `SortBlobs` of `share/blob.go`: `sort.SliceStable` with
`less i j = blobs[i].Compare(blobs[j]) < 0`, modelled as the stable merge
sort for the total preorder `blobLE`. -/
def SortBlobs (blobs : List Blob) : List Blob := blobs.mergeSort blobLE

/-- Modelled from the spec: the call contract of the sparse share
splitter, the external collaborator of `ToShares` (spec §1, §4.3) — a
fresh-instance constructor, a fallible stateful `Write`, and `Export`.
`σ` is the splitter state, `τ` the share type, `ε` the splitter's error
type; its packing policy is opaque to the core. -/
structure SplitterModel (σ τ ε : Type) where
  NewSparseShareSplitter : σ
  Write : σ → Blob → σ × Option ε
  Export : σ → List τ

/-- `ToShares` of `share/blob.go`: build a fresh splitter, write the one
receiver blob, propagate a write error verbatim, otherwise export. -/
def Blob.ToShares {σ τ ε : Type} (m : SplitterModel σ τ ε) (b : Blob) :
    Option (List τ) × Option ε :=
  match m.Write m.NewSparseShareSplitter b with
  | (_, some e) => (none, some e)
  | (s, none) => (some (m.Export s), none)

/-! ## Concrete example values (used by the witness theorems) -/

/-- A valid version-zero namespace (version byte 0, id byte 1). -/
def exNs : Namespace := ⟨[0, 1]⟩

/-- A second valid version-zero namespace, larger than `exNs`. -/
def exNs2 : Namespace := ⟨[0, 2]⟩

/-- Non-empty example data. -/
def exData : List Nat := [10, 20, 30]

/-- A signer of the required size. -/
def exSigner : List Nat := List.replicate SignerSize 7

/-- The blob `NewBlob exNs exData 0 none` constructs. -/
def exBlob : Blob := ⟨exNs, exData, 0, none⟩

/-- A second blob sharing `exBlob`'s namespace. -/
def exBlobB : Blob := ⟨exNs, [99], 0, none⟩

/-- A blob with the larger namespace `exNs2`. -/
def exBlobC : Blob := ⟨exNs2, [1], 0, none⟩

/-- The blob `NewBlob exNs exData 1 (some exSigner)` constructs. -/
def exBlobV1 : Blob := ⟨exNs, exData, 1, some exSigner⟩

/-- A splitter instance for exercising the `ToShares` boundary: the state
counts written bytes, `Write` fails on data longer than 100 bytes, and
`Export` returns the byte count as a single share. -/
def exSplitter : SplitterModel Nat Nat Nat where
  NewSparseShareSplitter := 0
  Write := fun s b =>
    (s + b.data.length, if b.data.length > 100 then some 1 else none)
  Export := fun s => [s]

/-- A blob whose data makes `exSplitter`'s `Write` fail. -/
def exLongBlob : Blob := ⟨exNs, List.replicate 101 0, 0, none⟩

/-! ## Helper lemmas -/

/-- Success characterisation of `NewBlob`. -/
lemma newBlob_ok_iff (ns : Namespace) (d : List Nat) (v : Nat) (s : Option (List Nat)) :
    (NewBlob ns d v s).2 = none ↔
      d ≠ [] ∧ ns.IsEmpty = false ∧ ns.Version = NamespaceVersionZero ∧
        ((v = ShareVersionZero ∧ s = none) ∨
          (v = ShareVersionOne ∧ sliceLen s = SignerSize)) := by
  unfold NewBlob
  split_ifs with h1 h2 h3 h4 h5 h6 h7 <;>
    simp_all [List.length_eq_zero, Namespace.IsEmpty, ShareVersionZero, ShareVersionOne]

/-- On success, `NewBlob` returns exactly the record of its arguments. -/
lemma newBlob_ok_inv {ns : Namespace} {d : List Nat} {v : Nat} {s : Option (List Nat)}
    {b : Blob} (h : NewBlob ns d v s = (some b, none)) :
    b = ⟨ns, d, v, s⟩ ∧ d ≠ [] ∧ ns.IsEmpty = false ∧
      ns.Version = NamespaceVersionZero ∧
      ((v = ShareVersionZero ∧ s = none) ∨
        (v = ShareVersionOne ∧ sliceLen s = SignerSize)) := by
  have h2 := (newBlob_ok_iff ns d v s).mp (by rw [h])
  refine ⟨?_, h2⟩
  revert h
  unfold NewBlob
  split_ifs <;> intro h <;> simp_all

/-- Converse: the success conditions produce the record of the arguments. -/
lemma newBlob_ok_of (ns : Namespace) (d : List Nat) (v : Nat) (s : Option (List Nat))
    (h1 : d ≠ []) (h2 : ns.IsEmpty = false) (h3 : ns.Version = NamespaceVersionZero)
    (h4 : (v = ShareVersionZero ∧ s = none) ∨
      (v = ShareVersionOne ∧ sliceLen s = SignerSize)) :
    NewBlob ns d v s = (some ⟨ns, d, v, s⟩, none) := by
  unfold NewBlob
  rcases h4 with ⟨hv, hs⟩ | ⟨hv, hs⟩ <;> subst hv <;>
    simp_all [List.length_eq_zero, ShareVersionZero, ShareVersionOne]

/-- `NewBlob` never returns neither a blob nor an error. -/
lemma newBlob_not_none_none (ns : Namespace) (d : List Nat) (v : Nat)
    (s : Option (List Nat)) : NewBlob ns d v s ≠ (none, none) := by
  unfold NewBlob
  split_ifs <;> simp

/-- `NewBlobFromProto` never returns neither a blob nor an error. -/
lemma newBlobFromProto_not_none_none (pb : BlobProto) :
    NewBlobFromProto pb ≠ (none, none) := by
  unfold NewBlobFromProto
  split_ifs <;> simp [newBlob_not_none_none]

/-- A non-empty version-zero namespace is rebuilt unchanged from its
version and id. -/
lemma newNamespace_version_id {ns : Namespace} (h1 : ns.IsEmpty = false)
    (h2 : ns.Version = NamespaceVersionZero) : NewNamespace ns.Version ns.ID = ns := by
  obtain ⟨bytes⟩ := ns
  cases bytes with
  | nil => simp [Namespace.IsEmpty] at h1
  | cons a t => simp [NewNamespace, Namespace.Version, Namespace.ID]

/-- `bytesCompare` is zero exactly on equal byte strings. -/
lemma bytesCompare_eq_zero_iff : ∀ x y : List Nat, Namespace.bytesCompare x y = 0 ↔ x = y
  | [], [] => by simp [Namespace.bytesCompare]
  | [], _ :: _ => by simp [Namespace.bytesCompare]
  | _ :: _, [] => by simp [Namespace.bytesCompare]
  | a :: as, b :: bs => by
    simp only [Namespace.bytesCompare]
    split_ifs with hab hba
    · constructor
      · intro hc; exact absurd hc (by decide)
      · intro hc; injection hc with hc1 _; omega
    · constructor
      · intro hc; exact absurd hc (by decide)
      · intro hc; injection hc with hc1 _; omega
    · have hab2 : a = b := by omega
      subst hab2
      simp [bytesCompare_eq_zero_iff as bs]

/-- `bytesCompare` is antisymmetric under argument swap. -/
lemma bytesCompare_swap : ∀ x y : List Nat,
    Namespace.bytesCompare x y = -Namespace.bytesCompare y x
  | [], [] => by simp [Namespace.bytesCompare]
  | [], _ :: _ => by simp [Namespace.bytesCompare]
  | _ :: _, [] => by simp [Namespace.bytesCompare]
  | a :: as, b :: bs => by
    simp only [Namespace.bytesCompare]
    split_ifs with hab hba <;> try omega
    exact bytesCompare_swap as bs

/-- Transitivity of the non-positive side of `bytesCompare`. -/
lemma bytesCompare_le_trans : ∀ x y z : List Nat,
    Namespace.bytesCompare x y ≤ 0 → Namespace.bytesCompare y z ≤ 0 →
    Namespace.bytesCompare x z ≤ 0
  | [], y, z, _, _ => by cases z <;> simp [Namespace.bytesCompare]
  | _ :: _, [], z, h1, _ => by simp [Namespace.bytesCompare] at h1
  | _ :: _, _ :: _, [], _, h2 => by simp [Namespace.bytesCompare] at h2
  | a :: as, b :: bs, c :: cs, h1, h2 => by
    simp only [Namespace.bytesCompare] at h1 h2 ⊢
    split_ifs at h1 h2 ⊢ <;> try omega
    exact bytesCompare_le_trans as bs cs h1 h2

/-- `blobLE` is total. -/
lemma blobLE_total (a b : Blob) : blobLE a b || blobLE b a := by
  simp only [blobLE, Bool.or_eq_true, Bool.not_eq_true', decide_eq_false_iff_not]
  have := bytesCompare_swap a.ns.bytes b.ns.bytes
  simp only [Blob.Compare, Namespace.Compare] at *
  omega

/-- `blobLE` is transitive. -/
lemma blobLE_trans (a b c : Blob) (h1 : blobLE a b) (h2 : blobLE b c) : blobLE a c := by
  simp only [blobLE, Bool.not_eq_true', decide_eq_false_iff_not] at h1 h2 ⊢
  simp only [Blob.Compare, Namespace.Compare] at h1 h2 ⊢
  have hab := bytesCompare_swap b.ns.bytes a.ns.bytes
  have hbc := bytesCompare_swap c.ns.bytes b.ns.bytes
  have hac := bytesCompare_swap c.ns.bytes a.ns.bytes
  have := bytesCompare_le_trans a.ns.bytes b.ns.bytes c.ns.bytes (by omega) (by omega)
  omega

/-- Inside the wire ranges, `NewBlobFromProto` is exactly the delegation
to `NewBlob` on the reconstructed namespace and narrowed versions. -/
lemma fromProto_in_range (pb : BlobProto)
    (h1 : pb.namespaceVersion ≤ NamespaceVersionMax)
    (h2 : pb.shareVersion ≤ MaxShareVersion) :
    NewBlobFromProto pb =
      NewBlob (NewNamespace (uint8Cast pb.namespaceVersion) pb.namespaceId)
        pb.data (uint8Cast pb.shareVersion) pb.signer := by
  unfold NewBlobFromProto
  split_ifs <;> first | rfl | omega

/-- `UnmarshalJSON` on a parsed record propagates a validation error and
leaves the receiver unchanged. -/
lemma unmarshalJSON_record_err (b0 : Blob) (pb : BlobProto) (e : BlobError)
    (h : (NewBlobFromProto pb).2 = some e) :
    Blob.UnmarshalJSON b0 (.record pb) = (b0, some e) := by
  simp only [Blob.UnmarshalJSON, jsonUnmarshalBytes]
  split
  · next x e2 heq => rw [heq] at h; simp_all
  · next blob heq => rw [heq] at h; simp at h

/-- `UnmarshalJSON` on a parsed record overwrites the receiver with the
validated blob on success. -/
lemma unmarshalJSON_record_ok (b0 : Blob) (pb : BlobProto) (b : Blob)
    (h : NewBlobFromProto pb = (some b, none)) :
    Blob.UnmarshalJSON b0 (.record pb) = (b, none) := by
  simp only [Blob.UnmarshalJSON, jsonUnmarshalBytes]
  split
  · next x e2 heq => rw [h] at heq; simp at heq
  · next blob heq =>
    rw [h] at heq
    simp only [Prod.mk.injEq] at heq
    rw [← heq.1]
    simp

/-! ## Claim theorems -/

/-- Claim C1: `NewBlob` succeeds exactly when the data is non-empty, the
namespace is non-empty with version `NamespaceVersionZero`, and the signer
matches the share-version dispatch (0 or 1); failing inputs are reported
in the stated order — empty data first, then empty namespace, then wrong
namespace version, then the share-version dispatch with every share
version other than 0 and 1 rejected — each yielding exactly the matching
error kind. -/
theorem newBlob_validation_order (ns : Namespace) (d : List Nat) (v : Nat)
    (s : Option (List Nat)) :
    ((NewBlob ns d v s).2 = none ↔
      d ≠ [] ∧ ns.IsEmpty = false ∧ ns.Version = NamespaceVersionZero ∧
        ((v = ShareVersionZero ∧ s = none) ∨
          (v = ShareVersionOne ∧ sliceLen s = SignerSize)))
    ∧ (d = [] → NewBlob ns d v s = (none, some .emptyData))
    ∧ (d ≠ [] → ns.IsEmpty = true → NewBlob ns d v s = (none, some .emptyNamespace))
    ∧ (d ≠ [] → ns.IsEmpty = false → ns.Version ≠ NamespaceVersionZero →
        NewBlob ns d v s =
          (none, some (.unsupportedNamespaceVersion NamespaceVersionZero ns.Version)))
    ∧ (d ≠ [] → ns.IsEmpty = false → ns.Version = NamespaceVersionZero →
        v ≠ ShareVersionZero → v ≠ ShareVersionOne →
        NewBlob ns d v s = (none, some (.unsupportedShareVersion v))) := by
  refine ⟨newBlob_ok_iff ns d v s, ?_, ?_, ?_, ?_⟩ <;>
    · intros
      unfold NewBlob
      split_ifs <;> simp_all [List.length_eq_zero]

/-- Claim C1 witness: each of the four ordered failure clauses fires on a
concrete input. -/
theorem newBlob_validation_order_witness :
    NewBlob exNs [] 0 none = (none, some .emptyData)
    ∧ NewBlob ⟨[]⟩ exData 0 none = (none, some .emptyNamespace)
    ∧ NewBlob ⟨[3, 1]⟩ exData 0 none =
        (none, some (.unsupportedNamespaceVersion 0 3))
    ∧ NewBlob exNs exData 2 none = (none, some (.unsupportedShareVersion 2)) :=
  ⟨(newBlob_validation_order exNs [] 0 none).2.1 rfl,
   (newBlob_validation_order ⟨[]⟩ exData 0 none).2.2.1 (by decide) (by decide),
   (newBlob_validation_order ⟨[3, 1]⟩ exData 0 none).2.2.2.1
     (by decide) (by decide) (by decide),
   (newBlob_validation_order exNs exData 2 none).2.2.2.2
     (by decide) (by decide) (by decide) (by decide) (by decide)⟩

/-- Claim C5: with non-empty data and a valid version-zero namespace,
share version 0 succeeds exactly when the signer is the absent sentinel
(`none`), any present signer — including a present-but-empty one — being
rejected with the signer-not-allowed error; share version 1 succeeds
exactly when the signer's length is `SignerSize`, every other length
failing with the signer-size error. -/
theorem newBlob_signer_dispatch (ns : Namespace) (d : List Nat)
    (s : Option (List Nat)) (h1 : d ≠ []) (h2 : ns.IsEmpty = false)
    (h3 : ns.Version = NamespaceVersionZero) :
    ((NewBlob ns d ShareVersionZero s).2 = none ↔ s = none)
    ∧ (∀ l, s = some l →
        NewBlob ns d ShareVersionZero s = (none, some .signerNotAllowed))
    ∧ ((NewBlob ns d ShareVersionOne s).2 = none ↔ sliceLen s = SignerSize)
    ∧ (sliceLen s ≠ SignerSize →
        NewBlob ns d ShareVersionOne s = (none, some (.signerSize SignerSize))) := by
  refine ⟨?_, ?_, ?_, ?_⟩
  · rw [newBlob_ok_iff]
    simp [h1, h2, h3, ShareVersionZero, ShareVersionOne]
  · intro l hl
    subst hl
    unfold NewBlob
    split_ifs <;> simp_all [List.length_eq_zero]
  · rw [newBlob_ok_iff]
    simp [h1, h2, h3, ShareVersionZero, ShareVersionOne]
  · intro hs
    unfold NewBlob
    split_ifs <;> simp_all [List.length_eq_zero, ShareVersionZero, ShareVersionOne]

/-- Claim C5 witness: at the concrete namespace/data, version 0 rejects a
present-but-empty signer, and version 1 rejects a one-byte-short signer. -/
theorem newBlob_signer_dispatch_witness :
    NewBlob exNs exData ShareVersionZero (some []) = (none, some .signerNotAllowed)
    ∧ NewBlob exNs exData ShareVersionOne (some (List.replicate 19 7)) =
        (none, some (.signerSize SignerSize)) :=
  ⟨(newBlob_signer_dispatch exNs exData (some []) (by decide) (by decide)
      (by decide)).2.1 [] rfl,
   (newBlob_signer_dispatch exNs exData (some (List.replicate 19 7)) (by decide)
      (by decide) (by decide)).2.2.2 (by decide)⟩

/-- Claim C7: `IsEmpty` is true exactly when the data has length zero; it
is false for every blob returned successfully by `NewBlob`, `NewV0Blob`,
`NewV1Blob` or either decoder, and true for the default instance. -/
theorem isEmpty_spec :
    (∀ b : Blob, b.IsEmpty = true ↔ b.data.length = 0)
    ∧ (∀ ns d v s b, (NewBlob ns d v s).1 = some b → b.IsEmpty = false)
    ∧ (∀ ns d b, (NewV0Blob ns d).1 = some b → b.IsEmpty = false)
    ∧ (∀ ns d s b, (NewV1Blob ns d s).1 = some b → b.IsEmpty = false)
    ∧ (∀ w b, (UnmarshalBlob w).1 = some b → b.IsEmpty = false)
    ∧ (∀ (b0 : Blob) w, (b0.UnmarshalJSON w).2 = none →
        ((b0.UnmarshalJSON w).1).IsEmpty = false)
    ∧ (default : Blob).IsEmpty = true := by
  have hnb : ∀ ns d v s b, (NewBlob ns d v s).1 = some b → b.IsEmpty = false := by
    intro ns d v s b h
    unfold NewBlob at h
    split_ifs at h <;> simp_all [Blob.IsEmpty] <;> (subst h; simp_all)
  have hfp : ∀ pb b, (NewBlobFromProto pb).1 = some b → b.IsEmpty = false := by
    intro pb b h
    unfold NewBlobFromProto at h
    split_ifs at h
    exact hnb _ _ _ _ _ h
  refine ⟨?_, hnb, ?_, ?_, ?_, ?_, by decide⟩
  · intro b
    simp [Blob.IsEmpty]
  · intro ns d b h
    exact hnb _ _ _ _ _ h
  · intro ns d s b h
    exact hnb _ _ _ _ _ h
  · intro w b h
    cases w with
    | garbage => simp [UnmarshalBlob, protoUnmarshalBytes] at h
    | record pb =>
      simp only [UnmarshalBlob, protoUnmarshalBytes] at h
      exact hfp _ _ h
  · intro b0 w h
    cases w with
    | garbage => simp [Blob.UnmarshalJSON, jsonUnmarshalBytes] at h
    | record pb =>
      simp only [Blob.UnmarshalJSON, jsonUnmarshalBytes] at h ⊢
      split at h
      · exact absurd h (by simp)
      · next blob heq =>
        cases blob with
        | none => exact absurd heq (newBlobFromProto_not_none_none pb)
        | some b => simpa using hfp pb b (by rw [heq])

/-- Claim C7 witness: a concretely constructed blob is non-empty. -/
theorem isEmpty_spec_witness :
    (NewBlob exNs exData 0 none).1 = some exBlob ∧ exBlob.IsEmpty = false :=
  ⟨by decide, isEmpty_spec.2.1 exNs exData 0 none exBlob (by decide)⟩

/-- Claim C10: whenever `NewBlob`, `NewBlobFromProto` or `UnmarshalBlob`
returns an error, the accompanying blob result is `none` — no partially
populated blob accompanies an error. -/
theorem error_implies_nil_blob :
    (∀ ns d v s e, (NewBlob ns d v s).2 = some e → (NewBlob ns d v s).1 = none)
    ∧ (∀ pb e, (NewBlobFromProto pb).2 = some e → (NewBlobFromProto pb).1 = none)
    ∧ (∀ w e, (UnmarshalBlob w).2 = some e → (UnmarshalBlob w).1 = none) := by
  have hnb : ∀ ns d v s e, (NewBlob ns d v s).2 = some e →
      (NewBlob ns d v s).1 = none := by
    intro ns d v s e h
    unfold NewBlob at *
    split_ifs at * <;> simp_all
  have hfp : ∀ pb e, (NewBlobFromProto pb).2 = some e →
      (NewBlobFromProto pb).1 = none := by
    intro pb e h
    unfold NewBlobFromProto at *
    split_ifs at * <;> first | rfl | exact hnb _ _ _ _ _ h
  refine ⟨hnb, hfp, ?_⟩
  intro w e h
  cases w with
  | garbage => rfl
  | record pb =>
    simp only [UnmarshalBlob, protoUnmarshalBytes] at h ⊢
    exact hfp _ _ h

/-- Claim C10 witness: a failing concrete decode has a `none` blob. -/
theorem error_implies_nil_blob_witness :
    (UnmarshalBlob .garbage).2 = some .decodeError
    ∧ (UnmarshalBlob .garbage).1 = none :=
  ⟨rfl, error_implies_nil_blob.2.2 .garbage .decodeError rfl⟩

/-- Claim C4: `NewBlobFromProto` rejects a namespace version field above
`NamespaceVersionMax` with the namespace-version range error and a share
version field above `MaxShareVersion` with the share-version range error,
before any §4.1 validation runs (inside the ranges it is exactly the
delegation to the validating constructor); the range errors are distinct
from the exact-value error kinds. -/
theorem fromProto_range_checks (pb : BlobProto) :
    (pb.namespaceVersion > NamespaceVersionMax →
      NewBlobFromProto pb = (none, some .namespaceVersionRange))
    ∧ (pb.namespaceVersion ≤ NamespaceVersionMax →
        pb.shareVersion > MaxShareVersion →
        NewBlobFromProto pb = (none, some (.shareVersionRange MaxShareVersion)))
    ∧ (pb.namespaceVersion ≤ NamespaceVersionMax →
        pb.shareVersion ≤ MaxShareVersion →
        NewBlobFromProto pb =
          NewBlob (NewNamespace (uint8Cast pb.namespaceVersion) pb.namespaceId)
            pb.data (uint8Cast pb.shareVersion) pb.signer)
    ∧ (∀ a b, BlobError.namespaceVersionRange ≠ .unsupportedNamespaceVersion a b)
    ∧ (∀ m v, BlobError.shareVersionRange m ≠ .unsupportedShareVersion v) := by
  refine ⟨?_, ?_, fun h1 h2 => fromProto_in_range pb h1 h2,
    fun a b => by simp, fun m v => by simp⟩ <;>
    · intros
      unfold NewBlobFromProto
      split_ifs <;> first | rfl | omega

/-- Claim C4 witness: a namespace version of 300 trips the first range
check even though it also violates the exact-value rule, and a share
version of 200 trips the second. -/
theorem fromProto_range_checks_witness :
    NewBlobFromProto ⟨[1], 300, 0, [5], none⟩ = (none, some .namespaceVersionRange)
    ∧ NewBlobFromProto ⟨[1], 0, 200, [5], none⟩ =
        (none, some (.shareVersionRange MaxShareVersion)) :=
  ⟨(fromProto_range_checks ⟨[1], 300, 0, [5], none⟩).1 (by decide),
   (fromProto_range_checks ⟨[1], 0, 200, [5], none⟩).2.1 (by decide) (by decide)⟩

/-- Claim C3: both decoders route the parsed record through the
validating constructor: the binary decoder equals `NewBlobFromProto` on
every payload that parses, the textual decoder propagates every
validation error, and structurally well-formed payloads with semantically
invalid contents — empty data, or a signer present with share version 0 —
fail with exactly the corresponding validation error on both decoders. -/
theorem decoders_route_through_validator :
    (∀ w pb, protoUnmarshalBytes w = some pb →
      UnmarshalBlob w = NewBlobFromProto pb)
    ∧ (∀ (b0 : Blob) w pb e, jsonUnmarshalBytes w = some pb →
        (NewBlobFromProto pb).2 = some e → b0.UnmarshalJSON w = (b0, some e))
    ∧ (∀ pb : BlobProto, pb.namespaceVersion ≤ NamespaceVersionMax →
        pb.shareVersion ≤ MaxShareVersion → pb.data = [] →
        UnmarshalBlob (.record pb) = (none, some .emptyData)
        ∧ ∀ b0 : Blob, b0.UnmarshalJSON (.record pb) = (b0, some .emptyData))
    ∧ (∀ pb : BlobProto, pb.namespaceVersion = 0 → pb.shareVersion = 0 →
        pb.data ≠ [] → pb.signer ≠ none →
        UnmarshalBlob (.record pb) = (none, some .signerNotAllowed)
        ∧ ∀ b0 : Blob, b0.UnmarshalJSON (.record pb) = (b0, some .signerNotAllowed)) := by
  refine ⟨?_, ?_, ?_, ?_⟩
  · intro w pb hw
    cases w with
    | garbage => simp [protoUnmarshalBytes] at hw
    | record pb2 =>
      simp only [protoUnmarshalBytes, Option.some.injEq] at hw
      subst hw
      rfl
  · intro b0 w pb e hw he
    cases w with
    | garbage => simp [jsonUnmarshalBytes] at hw
    | record pb2 =>
      simp only [jsonUnmarshalBytes, Option.some.injEq] at hw
      subst hw
      exact unmarshalJSON_record_err b0 _ e he
  · intro pb h1 h2 hd
    have he : NewBlobFromProto pb = (none, some .emptyData) := by
      rw [fromProto_in_range pb h1 h2]
      unfold NewBlob
      split_ifs with hlen <;> simp_all [List.length_eq_zero]
    refine ⟨by simpa [UnmarshalBlob, protoUnmarshalBytes] using he,
      fun b0 => unmarshalJSON_record_err b0 pb .emptyData (by rw [he])⟩
  · intro pb h1 h2 hd hs
    have he : NewBlobFromProto pb = (none, some .signerNotAllowed) := by
      rw [fromProto_in_range pb (by rw [h1]; exact Nat.zero_le _)
        (by rw [h2]; exact Nat.zero_le _)]
      unfold NewBlob
      rw [h1, h2]
      split_ifs <;>
        simp_all [List.length_eq_zero, uint8Cast, NewNamespace, Namespace.IsEmpty,
          Namespace.Version, NamespaceVersionZero, ShareVersionZero]
    refine ⟨by simpa [UnmarshalBlob, protoUnmarshalBytes] using he,
      fun b0 => unmarshalJSON_record_err b0 pb .signerNotAllowed (by rw [he])⟩

/-- Claim C3 witness: a record with share version 0 and a present (even
empty) signer is rejected by both decoders with the signer error; a
record with empty data is rejected with the empty-data error. -/
theorem decoders_route_through_validator_witness :
    UnmarshalBlob (.record ⟨[1], 0, 0, [5], some []⟩) =
      (none, some .signerNotAllowed)
    ∧ exBlob.UnmarshalJSON (.record ⟨[1], 0, 0, [5], some []⟩) =
        (exBlob, some .signerNotAllowed)
    ∧ UnmarshalBlob (.record ⟨[1], 0, 0, [], none⟩) = (none, some .emptyData) :=
  ⟨((decoders_route_through_validator.2.2.2 ⟨[1], 0, 0, [5], some []⟩
      (by decide) (by decide) (by decide) (by decide)).1),
   ((decoders_route_through_validator.2.2.2 ⟨[1], 0, 0, [5], some []⟩
      (by decide) (by decide) (by decide) (by decide)).2 exBlob),
   ((decoders_route_through_validator.2.2.1 ⟨[1], 0, 0, [], none⟩
      (by decide) (by decide) (by decide)).1)⟩

/-- Claim C9: textual decoding is atomic in its receiver — whenever
`UnmarshalJSON` returns an error, whether from a parse failure or from
the validating constructor, the receiver is exactly as it was before the
call. -/
theorem unmarshalJSON_atomic (b : Blob) (bb : JsonPayload) (e : BlobError)
    (h : (b.UnmarshalJSON bb).2 = some e) : (b.UnmarshalJSON bb).1 = b := by
  cases bb with
  | garbage => rfl
  | record pb =>
    simp only [Blob.UnmarshalJSON, jsonUnmarshalBytes] at h ⊢
    split at h
    · rfl
    · simp at h

/-- Claim C9 witness: a failing decode (empty data in the record) leaves
the concrete receiver untouched. -/
theorem unmarshalJSON_atomic_witness :
    (exBlob.UnmarshalJSON (.record ⟨[1], 0, 0, [], none⟩)).2 = some .emptyData
    ∧ (exBlob.UnmarshalJSON (.record ⟨[1], 0, 0, [], none⟩)).1 = exBlob :=
  ⟨by decide,
   unmarshalJSON_atomic exBlob (.record ⟨[1], 0, 0, [], none⟩) .emptyData (by decide)⟩

/-- Claim C8: `ToShares` builds a fresh splitter, writes exactly the one
receiver blob to it, and either propagates the write error verbatim with
a nil share sequence, or returns exactly the splitter's export with no
error. -/
theorem toShares_boundary {σ τ ε : Type} (m : SplitterModel σ τ ε) (b : Blob) :
    (∀ st e, m.Write m.NewSparseShareSplitter b = (st, some e) →
      Blob.ToShares m b = (none, some e))
    ∧ (∀ st, m.Write m.NewSparseShareSplitter b = (st, none) →
      Blob.ToShares m b = (some (m.Export st), none)) := by
  constructor
  · intro st e h
    unfold Blob.ToShares
    rw [h]
  · intro st h
    unfold Blob.ToShares
    rw [h]

/-- Claim C8 witness: on a concrete splitter model, a failing write is
propagated verbatim and a successful write yields the export. -/
theorem toShares_boundary_witness :
    exSplitter.Write exSplitter.NewSparseShareSplitter exLongBlob = (101, some 1)
    ∧ Blob.ToShares exSplitter exLongBlob = (none, some 1)
    ∧ exSplitter.Write exSplitter.NewSparseShareSplitter exBlob = (3, none)
    ∧ Blob.ToShares exSplitter exBlob = (some [3], none) :=
  ⟨by decide,
   (toShares_boundary exSplitter exLongBlob).1 101 1 (by decide),
   by decide,
   (toShares_boundary exSplitter exBlob).2 3 (by decide)⟩

/-- Claim C2: for every blob successfully constructed by `NewBlob`,
decoding its binary encoding reproduces it field-for-field, and decoding
its textual encoding reproduces it field-for-field (for any prior
receiver value), each round trip holding independently. -/
theorem marshal_roundtrip (ns : Namespace) (d : List Nat) (v : Nat)
    (s : Option (List Nat)) (b : Blob) (h : NewBlob ns d v s = (some b, none)) :
    UnmarshalBlob b.Marshal = (some b, none)
    ∧ ∀ b0 : Blob, b0.UnmarshalJSON b.MarshalJSON = (b, none) := by
  obtain ⟨hb, hd, hie, hv0, hcase⟩ := newBlob_ok_inv h
  subst hb
  have hsig : normalizeSigner s = s := by
    rcases hcase with ⟨hv, hs⟩ | ⟨hv, hs⟩
    · subst hs; rfl
    · cases s with
      | none => rfl
      | some l =>
        cases l with
        | nil => simp [sliceLen, SignerSize] at hs
        | cons a t => rfl
  have hcast : uint8Cast v = v := by
    rcases hcase with ⟨hv, _⟩ | ⟨hv, _⟩ <;> subst hv <;> rfl
  have hv127 : v ≤ MaxShareVersion := by
    rcases hcase with ⟨hv, _⟩ | ⟨hv, _⟩ <;> subst hv <;> decide
  have hrec : protoNormalize (Blob.toProto ⟨ns, d, v, s⟩) =
      ⟨ns.ID, ns.Version, v, d, s⟩ := by
    simp [protoNormalize, Blob.toProto, hsig]
  have hkey : NewBlobFromProto (protoNormalize (Blob.toProto ⟨ns, d, v, s⟩)) =
      (some ⟨ns, d, v, s⟩, none) := by
    rw [hrec, fromProto_in_range ⟨ns.ID, ns.Version, v, d, s⟩
      (by show ns.Version ≤ NamespaceVersionMax; rw [hv0]; decide) hv127]
    simp only [hcast]
    rw [show uint8Cast ns.Version = ns.Version by rw [hv0]; rfl]
    rw [newNamespace_version_id hie hv0]
    exact h
  constructor
  · show NewBlobFromProto (protoNormalize (Blob.toProto ⟨ns, d, v, s⟩)) =
      (some ⟨ns, d, v, s⟩, none)
    exact hkey
  · intro b0
    exact unmarshalJSON_record_ok b0 _ _ hkey

/-- Claim C2 witness: the concrete version-1 blob round-trips through
both encodings. -/
theorem marshal_roundtrip_witness :
    NewBlob exNs exData 1 (some exSigner) = (some exBlobV1, none)
    ∧ UnmarshalBlob exBlobV1.Marshal = (some exBlobV1, none)
    ∧ exBlob.UnmarshalJSON exBlobV1.MarshalJSON = (exBlobV1, none) :=
  ⟨by decide,
   (marshal_roundtrip exNs exData 1 (some exSigner) exBlobV1 (by decide)).1,
   (marshal_roundtrip exNs exData 1 (some exSigner) exBlobV1 (by decide)).2 exBlob⟩

/-- Claim C6: `Compare` is exactly the namespace comparison (blobs with
equal namespaces compare equal whatever their other fields), and
`SortBlobs` is a stable sort under it: its output is a permutation of the
input, non-decreasing by namespace, and every equal-namespace pair keeps
its original relative order. -/
theorem compare_sort_spec :
    (∀ a b : Blob, a.Compare b = a.ns.Compare b.ns)
    ∧ (∀ a b : Blob, a.ns = b.ns → a.Compare b = 0)
    ∧ (∀ l : List Blob, List.Perm (SortBlobs l) l)
    ∧ (∀ l : List Blob, (SortBlobs l).Pairwise fun x y => x.ns.Compare y.ns ≤ 0)
    ∧ (∀ (l : List Blob) (a b : Blob), a.Compare b = 0 → List.Sublist [a, b] l →
        List.Sublist [a, b] (SortBlobs l)) := by
  have htrans : ∀ a b c : Blob, blobLE a b → blobLE b c → blobLE a c := blobLE_trans
  have htotal : ∀ a b : Blob, blobLE a b || blobLE b a := blobLE_total
  refine ⟨fun a b => rfl, ?_, ?_, ?_, ?_⟩
  · intro a b hab
    simp [Blob.Compare, Namespace.Compare, hab, bytesCompare_eq_zero_iff]
  · intro l
    exact List.mergeSort_perm l blobLE
  · intro l
    have hs := @List.sorted_mergeSort Blob blobLE htrans htotal l
    refine hs.imp ?_
    intro x y hxy
    simp only [blobLE, Bool.not_eq_true', decide_eq_false_iff_not] at hxy
    have hswap := bytesCompare_swap y.ns.bytes x.ns.bytes
    simp only [Blob.Compare, Namespace.Compare] at *
    omega
  · intro l a b hab hsub
    refine List.pair_sublist_mergeSort htrans htotal ?_ hsub
    simp only [blobLE, Bool.not_eq_true', decide_eq_false_iff_not]
    have hswap := bytesCompare_swap b.ns.bytes a.ns.bytes
    simp only [Blob.Compare, Namespace.Compare] at *
    omega

/-- Claim C6 witness: two concrete blobs share a namespace and keep their
relative order through `SortBlobs`. -/
theorem compare_sort_spec_witness :
    Blob.Compare exBlob exBlobB = 0
    ∧ List.Sublist [exBlob, exBlobB] (SortBlobs [exBlobC, exBlob, exBlobB]) :=
  ⟨by decide,
   compare_sort_spec.2.2.2.2 [exBlobC, exBlob, exBlobB] exBlob exBlobB (by decide)
     (List.Sublist.cons exBlobC (List.Sublist.refl _))⟩

end GoSquare
